import Mathlib

/-!
Shallow embedding of the DrawApp collaborative-drawing server
(`src/pages/api/socket.ts`; `src/server.js` is the same logic).

The server keeps three pieces of process-global mutable state:
a `drawingHistory` list of operations, a `users` insertion-ordered map
from socket id to user record, and a monotone `colorIndex`.  Each inbound
socket event runs one handler to completion; handlers mutate this state
and emit messages either to all sockets (`io.emit`), to all sockets other
than the sender (`socket.broadcast.emit`) or to the sender alone
(`socket.emit` / an ack callback).  We model a handler as a pure function
from the server state (plus the event payload and, where the code calls
`Date.now()`, an explicit timestamp) to the new state and the list of
emissions.
-/

namespace DrawApp

/-- A stroke point `{x, y, pressure?}`.  Coordinates are modelled as
integers; no arithmetic is ever performed on them by the server. -/
structure Point where
  x : Int
  y : Int
  pressure : Option Int
  deriving DecidableEq, Repr

/-- An eraser point `{x, y, radius}` as sent in the `erase` payload. -/
structure ErasePoint where
  x : Int
  y : Int
  radius : Int
  deriving DecidableEq, Repr

/-- The `type` field of a `DrawingOperation`: `'draw' | 'erase'`. -/
inductive OpType where
  | draw
  | erase
  deriving DecidableEq, Repr

/-- The `DrawingOperation` record from `socket.ts`. -/
structure DrawingOperation where
  id : String
  userId : String
  type : OpType
  points : List Point
  color : String
  strokeWidth : Int
  timestamp : Nat
  deriving DecidableEq, Repr

/-- Cursor position `{x, y}`. -/
structure Cursor where
  x : Int
  y : Int
  deriving DecidableEq, Repr

/-- The `User` record from `socket.ts`. -/
structure User where
  id : String
  name : String
  color : String
  cursor : Option Cursor
  deriving DecidableEq, Repr

/-- The public projection of a user sent with cursor updates:
`{id, name, color}`. -/
structure PublicUser where
  id : String
  name : String
  color : String
  deriving DecidableEq, Repr

/-- The `draw-start` payload: `Omit<DrawingOperation, 'timestamp'>`
(the client supplies every field but the timestamp). -/
structure DrawStartData where
  id : String
  userId : String
  type : OpType
  points : List Point
  color : String
  strokeWidth : Int
  deriving DecidableEq, Repr

/-- The fixed 8-entry `userColors` palette. -/
def userColors : List String :=
  ["#FF6B6B", "#4ECDC4", "#45B7D1", "#FFA07A",
   "#98D8C8", "#F7DC6F", "#BB8FCE", "#85C1E2"]

/-!
### The `users` map

`users` is a JS `Map<string, User>`: insertion-ordered, keyed by socket
id.  We embed it as an association list; `set` overwrites in place when
the key exists and appends otherwise, `delete` removes the key,
`size` is the number of entries.
-/

/-- Lookup, `users.get k`. -/
def mapGet : List (String × User) → String → Option User
  | [], _ => none
  | p :: rest, k => if p.1 = k then some p.2 else mapGet rest k

/-- Insertion, `users.set k v`: overwrite the existing binding in place, or append. -/
def mapSet : List (String × User) → String → User → List (String × User)
  | [], k, v => [(k, v)]
  | p :: rest, k, v => if p.1 = k then (k, v) :: rest else p :: mapSet rest k v

/-- Removal, `users.delete k`. -/
def mapDelete : List (String × User) → String → List (String × User)
  | [], _ => []
  | p :: rest, k => if p.1 = k then mapDelete rest k else p :: mapDelete rest k

/-!
### Emissions
-/

/-- Which sockets a message is sent to: `socket.emit` (the sender alone),
`socket.broadcast.emit` (everyone but the sender), `io.emit` (everyone). -/
inductive Audience where
  | senderOnly
  | others
  | all
  deriving DecidableEq, Repr

/-- The payloads of the messages the server emits. -/
inductive Payload where
  | userAssigned (userId : String) (color : String) (name : String)
  | initialState (users : List User) (history : List DrawingOperation)
  | userJoined (user : User)
  | drawStartOut (op : DrawingOperation)
  | drawMoveOut (operationId : String) (points : List Point)
  | drawEndOut (operationId : String)
  | userCursor (userId : String) (cursor : Cursor) (user : PublicUser)
  | getUserResp (user : Option User)
  | operationRemoved (operationId : String)
  | operationAdded (operation : DrawingOperation)
  | eraseOut (op : DrawingOperation)
  | userLeft (userId : String)
  deriving DecidableEq, Repr

/-- One emitted message. -/
structure Emission where
  audience : Audience
  payload : Payload
  deriving DecidableEq, Repr

/-- The set of sockets that actually receive an emission, given the
sender and the list of currently connected socket ids. -/
def recipients (sender : String) (conns : List String) : Audience → List String
  | .senderOnly => [sender]
  | .others => conns.filter (fun c => c ≠ sender)
  | .all => conns

/-!
### Server state and event handlers
-/

/-- The process-global server state. -/
structure ServerState where
  drawingHistory : List DrawingOperation
  users : List (String × User)
  colorIndex : Nat
  connections : List String
  deriving DecidableEq, Repr

/-- The state at process start: empty log, no users, color index 0. -/
def initState : ServerState :=
  { drawingHistory := [], users := [], colorIndex := 0, connections := [] }

/-- The inbound events, each tagged with the sender's socket id.
`drawStart` and `erase` also carry the value of `Date.now()` at the
moment the handler runs. -/
inductive ClientEvent where
  | connect (sid : String)
  | drawStart (sid : String) (data : DrawStartData) (now : Nat)
  | drawMove (sid : String) (operationId : String) (points : List Point)
  | drawEnd (sid : String) (operationId : String)
  | cursorMove (sid : String) (cursor : Cursor)
  | getUser (sid : String) (target : String)
  | undo (sid : String)
  | redo (sid : String) (operation : DrawingOperation)
  | erase (sid : String) (operationId : String) (points : List ErasePoint) (now : Nat)
  | disconnect (sid : String)
  deriving DecidableEq, Repr

/-- The `io.on('connection', ...)` body: assign
`color = userColors[colorIndex % userColors.length]`, increment the
index, generate `name = "User " + (users.size + 1)`, register the user,
send identity and snapshot to the new socket, announce it to the rest. -/
def handleConnect (st : ServerState) (sid : String) : ServerState × List Emission :=
  let color := userColors.getD (st.colorIndex % userColors.length) ""
  let userName := "User " ++ toString (st.users.length + 1)
  let user : User := { id := sid, name := userName, color := color, cursor := none }
  let users' := mapSet st.users sid user
  ({ st with users := users',
              colorIndex := st.colorIndex + 1,
              connections := st.connections ++ [sid] },
   [⟨.senderOnly, .userAssigned sid color userName⟩,
    ⟨.senderOnly, .initialState (users'.map (·.2)) st.drawingHistory⟩,
    ⟨.others, .userJoined user⟩])

/-- Handler for `draw-start`: stamp the payload with a server-side
timestamp, append to the log, relay to everyone else. -/
def handleDrawStart (st : ServerState) (data : DrawStartData) (now : Nat) :
    ServerState × List Emission :=
  let operation : DrawingOperation :=
    { id := data.id, userId := data.userId, type := data.type,
      points := data.points, color := data.color,
      strokeWidth := data.strokeWidth, timestamp := now }
  ({ st with drawingHistory := st.drawingHistory ++ [operation] },
   [⟨.others, .drawStartOut operation⟩])

/-- The effect of `drawingHistory.find(op => op.id === data.operationId)` followed by an
in-place `operation.points.push(...data.points)`: append the points to the
first operation with the given id, leaving everything else unchanged. -/
def updateFirst : List DrawingOperation → String → List Point → List DrawingOperation
  | [], _, _ => []
  | op :: rest, opId, pts =>
    if op.id = opId then { op with points := op.points ++ pts } :: rest
    else op :: updateFirst rest opId pts

/-- Handler for `draw-move`: append points to the first matching
operation if any (silently dropping the mutation otherwise), and relay
the raw payload to everyone else in both cases. -/
def handleDrawMove (st : ServerState) (operationId : String) (points : List Point) :
    ServerState × List Emission :=
  ({ st with drawingHistory := updateFirst st.drawingHistory operationId points },
   [⟨.others, .drawMoveOut operationId points⟩])

/-- Handler for `draw-end`: pure relay, no log mutation. -/
def handleDrawEnd (st : ServerState) (operationId : String) :
    ServerState × List Emission :=
  (st, [⟨.others, .drawEndOut operationId⟩])

/-- Handler for `cursor-move`: if the sender is registered,
overwrite its cursor and broadcast the labelled cursor to everyone else;
otherwise do nothing. -/
def handleCursorMove (st : ServerState) (sid : String) (cursor : Cursor) :
    ServerState × List Emission :=
  match mapGet st.users sid with
  | some user =>
    ({ st with users := mapSet st.users sid { user with cursor := some cursor } },
     [⟨.others, .userCursor sid cursor ⟨user.id, user.name, user.color⟩⟩])
  | none => (st, [])

/-- Handler for `get-user`: reply to the requester alone with the
matching user or `null`. -/
def handleGetUser (st : ServerState) (target : String) :
    ServerState × List Emission :=
  (st, [⟨.senderOnly, .getUserResp (mapGet st.users target)⟩])

/-- Handler for `undo`: if the log is non-empty, pop its tail and
announce the removed operation's id to every socket (`io.emit`);
otherwise do nothing and emit nothing. -/
def handleUndo (st : ServerState) : ServerState × List Emission :=
  match st.drawingHistory.getLast? with
  | some removedOp =>
    ({ st with drawingHistory := st.drawingHistory.dropLast },
     [⟨.all, .operationRemoved removedOp.id⟩])
  | none => (st, [])

/-- Handler for `redo`: append the client-supplied operation to the
tail of the log, unvalidated, and announce it to every socket. -/
def handleRedo (st : ServerState) (operation : DrawingOperation) :
    ServerState × List Emission :=
  ({ st with drawingHistory := st.drawingHistory ++ [operation] },
   [⟨.all, .operationAdded operation⟩])

/-- The computation `strokeWidth: data.points[0]?.radius || 20`: the first point's
radius, except that a missing first point or a falsy (zero) radius
yields 20. -/
def eraseStrokeWidth (points : List ErasePoint) : Int :=
  match points.head? with
  | some p => if p.radius = 0 then 20 else p.radius
  | none => 20

/-- The operation constructed by the `erase` handler: erase kind, points
stripped to `{x, y}`, the fixed sentinel color `"#FFFFFF"` (the payload
carries no color), stroke width from the first point's radius. -/
def mkEraseOp (sid : String) (operationId : String) (points : List ErasePoint)
    (now : Nat) : DrawingOperation :=
  { id := operationId, userId := sid, type := .erase,
    points := points.map (fun p => { x := p.x, y := p.y, pressure := none }),
    color := "#FFFFFF",
    strokeWidth := eraseStrokeWidth points,
    timestamp := now }

/-- Handler for `erase`: build the erase-kind operation, append it
to the log and relay it to everyone else. -/
def handleErase (st : ServerState) (sid : String) (operationId : String)
    (points : List ErasePoint) (now : Nat) : ServerState × List Emission :=
  let operation := mkEraseOp sid operationId points now
  ({ st with drawingHistory := st.drawingHistory ++ [operation] },
   [⟨.others, .eraseOut operation⟩])

/-- Handler for `disconnect`: deregister the user, drop the
connection, announce the departure to the remaining sockets. -/
def handleDisconnect (st : ServerState) (sid : String) :
    ServerState × List Emission :=
  ({ st with users := mapDelete st.users sid,
              connections := st.connections.filter (fun c => c ≠ sid) },
   [⟨.others, .userLeft sid⟩])

/-- Dispatch one inbound event to its handler. -/
def step (st : ServerState) : ClientEvent → ServerState × List Emission
  | .connect sid => handleConnect st sid
  | .drawStart _ data now => handleDrawStart st data now
  | .drawMove _ opId pts => handleDrawMove st opId pts
  | .drawEnd _ opId => handleDrawEnd st opId
  | .cursorMove sid cursor => handleCursorMove st sid cursor
  | .getUser _ target => handleGetUser st target
  | .undo _ => handleUndo st
  | .redo _ operation => handleRedo st operation
  | .erase sid opId pts now => handleErase st sid opId pts now
  | .disconnect sid => handleDisconnect st sid

/-- Run a trace of events from a state, discarding emissions. -/
def run (st : ServerState) : List ClientEvent → ServerState
  | [] => st
  | e :: es => run (step st e).1 es

/-- Whether an event is a `redo`. -/
def isRedo : ClientEvent → Bool
  | .redo _ _ => true
  | _ => false

/-- The ids of the operations created by "start" events (`draw-start`
and `erase`), in arrival order. -/
def startIds : List ClientEvent → List String
  | [] => []
  | .drawStart _ d _ :: es => d.id :: startIds es
  | .erase _ opId _ _ :: es => opId :: startIds es
  | _ :: es => startIds es

/-- How many `connection` events a trace contains. -/
def countConnects : List ClientEvent → Nat
  | [] => 0
  | .connect _ :: es => countConnects es + 1
  | _ :: es => countConnects es

/-!
### Helper lemmas
-/

theorem mapGet_mapSet_self (m : List (String × User)) (k : String) (v : User) :
    mapGet (mapSet m k v) k = some v := by
  induction m with
  | nil => simp [mapSet, mapGet]
  | cons p rest ih =>
    by_cases h : p.1 = k
    · simp [mapSet, mapGet, h]
    · simp [mapSet, mapGet, h, ih]

theorem mapGet_mapDelete_self (m : List (String × User)) (k : String) :
    mapGet (mapDelete m k) k = none := by
  induction m with
  | nil => simp [mapDelete, mapGet]
  | cons p rest ih =>
    by_cases h : p.1 = k
    · simp [mapDelete, h, ih]
    · simp [mapDelete, mapGet, h, ih]

theorem mapGet_mapDelete_ne (m : List (String × User)) (k k' : String) (hne : k' ≠ k) :
    mapGet (mapDelete m k) k' = mapGet m k' := by
  induction m with
  | nil => simp [mapDelete]
  | cons p rest ih =>
    by_cases h : p.1 = k
    · have hk : ¬(k = k') := fun hc => hne hc.symm
      simp [mapDelete, mapGet, h, hk, ih]
    · by_cases h' : p.1 = k'
      · simp [mapDelete, mapGet, h, h', hne]
      · simp [mapDelete, mapGet, h, h', ih]

theorem updateFirst_of_not_found (l : List DrawingOperation) (opId : String)
    (pts : List Point) (h : ∀ op ∈ l, op.id ≠ opId) :
    updateFirst l opId pts = l := by
  induction l with
  | nil => rfl
  | cons op rest ih =>
    have h1 : op.id ≠ opId := h op (List.mem_cons_self op rest)
    have h2 : ∀ o ∈ rest, o.id ≠ opId := fun o ho => h o (List.mem_cons_of_mem op ho)
    simp [updateFirst, h1, ih h2]

theorem updateFirst_split (l₁ : List DrawingOperation) (op : DrawingOperation)
    (l₂ : List DrawingOperation) (opId : String) (pts : List Point)
    (hop : op.id = opId) (hmiss : ∀ o ∈ l₁, o.id ≠ opId) :
    updateFirst (l₁ ++ op :: l₂) opId pts =
      l₁ ++ { op with points := op.points ++ pts } :: l₂ := by
  induction l₁ with
  | nil => simp [updateFirst, hop]
  | cons o rest ih =>
    have h1 : o.id ≠ opId := hmiss o (List.mem_cons_self o rest)
    have h2 : ∀ x ∈ rest, x.id ≠ opId := fun x hx => hmiss x (List.mem_cons_of_mem o hx)
    simp [updateFirst, h1, ih h2]

theorem updateFirst_map_id (l : List DrawingOperation) (opId : String) (pts : List Point) :
    (updateFirst l opId pts).map (·.id) = l.map (·.id) := by
  induction l with
  | nil => rfl
  | cons op rest ih =>
    by_cases h : op.id = opId
    · simp [updateFirst, h]
    · simp [updateFirst, h, ih]

theorem colorIndex_run (es : List ClientEvent) (st : ServerState) :
    (run st es).colorIndex = st.colorIndex + countConnects es := by
  induction es generalizing st with
  | nil => simp [run, countConnects]
  | cons e es ih =>
    cases e <;>
      simp [run, step, countConnects, handleConnect, handleDrawStart, handleDrawMove,
            handleDrawEnd, handleCursorMove, handleGetUser, handleUndo, handleRedo,
            handleErase, handleDisconnect, ih] <;>
      first
        | omega
        | (rename_i sid cursor; cases hm : mapGet st.users sid <;> simp [ih]
           )
        | (cases hl : st.drawingHistory.getLast? <;> simp [ih])

theorem logIds_sublist (es : List ClientEvent) (st : ServerState) (ids : List String)
    (hnr : ∀ e ∈ es, isRedo e = false)
    (h : List.Sublist (st.drawingHistory.map (·.id)) ids) :
    List.Sublist ((run st es).drawingHistory.map (·.id)) (ids ++ startIds es) := by
  induction es generalizing st ids with
  | nil => simpa [run, startIds] using h
  | cons e es ih =>
    have hnr' : ∀ x ∈ es, isRedo x = false := fun x hx => hnr x (List.mem_cons_of_mem e hx)
    cases e with
    | connect sid =>
      simpa [run, step, handleConnect, startIds] using ih (step st (.connect sid)).1 ids hnr' h
    | drawStart sid d now =>
      have hstep : ((step st (.drawStart sid d now)).1.drawingHistory.map (·.id)).Sublist
          (ids ++ [d.id]) := by
        simp only [step, handleDrawStart, List.map_append]
        exact h.append (List.Sublist.refl _)
      simpa [run, startIds] using
        ih (step st (.drawStart sid d now)).1 (ids ++ [d.id]) hnr' hstep
    | drawMove sid opId pts =>
      have hstep : ((step st (.drawMove sid opId pts)).1.drawingHistory.map (·.id)).Sublist
          ids := by
        simpa [step, handleDrawMove, updateFirst_map_id] using h
      simpa [run, startIds] using ih (step st (.drawMove sid opId pts)).1 ids hnr' hstep
    | drawEnd sid opId =>
      simpa [run, step, handleDrawEnd, startIds] using
        ih (step st (.drawEnd sid opId)).1 ids hnr' h
    | cursorMove sid cursor =>
      have hstep : ((step st (.cursorMove sid cursor)).1.drawingHistory.map (·.id)).Sublist
          ids := by
        simp only [step, handleCursorMove]
        cases mapGet st.users sid <;> simpa using h
      simpa [run, startIds] using ih (step st (.cursorMove sid cursor)).1 ids hnr' hstep
    | getUser sid target =>
      simpa [run, step, handleGetUser, startIds] using
        ih (step st (.getUser sid target)).1 ids hnr' h
    | undo sid =>
      have hstep : ((step st (.undo sid)).1.drawingHistory.map (·.id)).Sublist ids := by
        simp only [step, handleUndo]
        cases st.drawingHistory.getLast? with
        | none => simpa using h
        | some op =>
          exact ((st.drawingHistory.dropLast_sublist.map (·.id)).trans h)
      simpa [run, startIds] using ih (step st (.undo sid)).1 ids hnr' hstep
    | redo sid operation =>
      exact absurd (hnr _ (List.mem_cons_self _ _)) (by simp [isRedo])
    | erase sid opId pts now =>
      have hstep : ((step st (.erase sid opId pts now)).1.drawingHistory.map (·.id)).Sublist
          (ids ++ [opId]) := by
        simp only [step, handleErase, List.map_append]
        exact h.append (List.Sublist.refl _)
      simpa [run, startIds] using
        ih (step st (.erase sid opId pts now)).1 (ids ++ [opId]) hnr' hstep
    | disconnect sid =>
      simpa [run, step, handleDisconnect, startIds] using
        ih (step st (.disconnect sid)).1 ids hnr' h

/-!
### Concrete data used by witnesses and counterexamples
-/

/-- A sample finished draw operation (authored by socket `"B"`). -/
def c1Op : DrawingOperation :=
  { id := "c1op", userId := "B", type := .draw, points := [], color := "#000000",
    strokeWidth := 2, timestamp := 0 }

/-- Two sample operations for the undo/redo round trip. -/
def c2OpA : DrawingOperation :=
  { id := "c2a", userId := "A", type := .draw, points := [], color := "#000000",
    strokeWidth := 2, timestamp := 1 }

def c2OpB : DrawingOperation :=
  { id := "c2b", userId := "B", type := .draw, points := [], color := "#111111",
    strokeWidth := 3, timestamp := 2 }

def c3Start1 : DrawStartData :=
  { id := "op1", userId := "A", type := .draw, points := [], color := "#000000",
    strokeWidth := 2 }

def c3Start2 : DrawStartData :=
  { id := "op2", userId := "A", type := .draw, points := [], color := "#000000",
    strokeWidth := 2 }

def c3Op1 : DrawingOperation :=
  { id := "op1", userId := "A", type := .draw, points := [], color := "#000000",
    strokeWidth := 2, timestamp := 5 }

def c3Op2 : DrawingOperation :=
  { id := "op2", userId := "A", type := .draw, points := [], color := "#000000",
    strokeWidth := 2, timestamp := 6 }

/-- Two strokes started in order `op1`, `op2`, both undone, then redone in
the opposite order with the very operations the undos removed. -/
def c3Trace : List ClientEvent :=
  [.connect "A", .drawStart "A" c3Start1 5, .drawStart "A" c3Start2 6,
   .undo "A", .undo "A", .redo "A" c3Op2, .redo "A" c3Op1]

/-- A redo-free trace exercising draw-start, undo and erase. -/
def c3NoRedoTrace : List ClientEvent :=
  [.connect "A", .drawStart "A" c3Start1 5, .drawStart "A" c3Start2 6,
   .undo "A", .erase "A" "e1" [] 7]

/-!
### Claim theorems
-/

/-- C1: if the log is non-empty, handling an undo removes exactly the tail
operation — whichever user authored it — and broadcasts that operation's
id to every connection (audience `all`, so the originator is included);
if the log is empty, undo leaves the state unchanged and emits nothing. -/
theorem undo_removes_tail_and_broadcasts_all (st : ServerState) (sid : String) :
    (st.drawingHistory = [] → step st (.undo sid) = (st, [])) ∧
    (∀ op, st.drawingHistory.getLast? = some op →
      (step st (.undo sid)).1 = { st with drawingHistory := st.drawingHistory.dropLast } ∧
      st.drawingHistory = (step st (.undo sid)).1.drawingHistory ++ [op] ∧
      (step st (.undo sid)).2 = [⟨.all, .operationRemoved op.id⟩] ∧
      recipients sid st.connections .all = st.connections) := by
  constructor
  · intro h
    simp [step, handleUndo, h]
  · intro op hop
    rcases List.eq_nil_or_concat st.drawingHistory with hnil | ⟨l, a, hl⟩
    · rw [hnil] at hop
      simp at hop
    · rw [List.concat_eq_append] at hl
      rw [hl, List.getLast?_concat] at hop
      injection hop with ha
      subst ha
      refine ⟨?_, ?_, ?_, rfl⟩
      · simp [step, handleUndo, hl, List.getLast?_concat]
      · simp [step, handleUndo, hl, List.getLast?_concat, List.dropLast_concat]
      · simp [step, handleUndo, hl, List.getLast?_concat]

theorem undo_removes_tail_and_broadcasts_all_witness :
    (step ⟨[], [], 0, ["A"]⟩ (.undo "A") = (⟨[], [], 0, ["A"]⟩, [])) ∧
    (step ⟨[c1Op], [], 0, ["A", "B"]⟩ (.undo "A")).1 =
      { (⟨[c1Op], [], 0, ["A", "B"]⟩ : ServerState) with
          drawingHistory := ([c1Op] : List DrawingOperation).dropLast } ∧
    (step ⟨[c1Op], [], 0, ["A", "B"]⟩ (.undo "A")).2 =
      [⟨.all, .operationRemoved c1Op.id⟩] :=
  ⟨(undo_removes_tail_and_broadcasts_all ⟨[], [], 0, ["A"]⟩ "A").1 rfl,
   ((undo_removes_tail_and_broadcasts_all ⟨[c1Op], [], 0, ["A", "B"]⟩ "A").2 c1Op rfl).1,
   ((undo_removes_tail_and_broadcasts_all ⟨[c1Op], [], 0, ["A", "B"]⟩ "A").2 c1Op rfl).2.2.1⟩

/-- C2: on a non-empty log, an undo immediately followed by a redo that
resupplies the removed operation restores the log's length, placing that
operation at the tail (after the surviving prefix, not at its original
index); the redo appends exactly the supplied operation and announces it
to every connection. -/
theorem undo_then_redo_restores_tail (st : ServerState) (s1 s2 : String)
    (op : DrawingOperation) (h : st.drawingHistory.getLast? = some op) :
    (run st [.undo s1, .redo s2 op]).drawingHistory =
      st.drawingHistory.dropLast ++ [op] ∧
    (run st [.undo s1, .redo s2 op]).drawingHistory.length =
      st.drawingHistory.length ∧
    (run st [.undo s1, .redo s2 op]).drawingHistory.getLast? = some op ∧
    (step (step st (.undo s1)).1 (.redo s2 op)).2 = [⟨.all, .operationAdded op⟩] ∧
    recipients s2 (step st (.undo s1)).1.connections .all =
      (step st (.undo s1)).1.connections := by
  rcases List.eq_nil_or_concat st.drawingHistory with hnil | ⟨l, a, hl⟩
  · rw [hnil] at h
    simp at h
  · rw [List.concat_eq_append] at hl
    rw [hl, List.getLast?_concat] at h
    injection h with ha
    subst ha
    refine ⟨?_, ?_, ?_, ?_, rfl⟩
    · simp [run, step, handleUndo, handleRedo, hl, List.getLast?_concat,
            List.dropLast_concat]
    · simp [run, step, handleUndo, handleRedo, hl, List.getLast?_concat,
            List.dropLast_concat]
    · simp [run, step, handleUndo, handleRedo, hl, List.getLast?_concat,
            List.dropLast_concat]
    · simp [run, step, handleUndo, handleRedo, hl, List.getLast?_concat]

theorem undo_then_redo_restores_tail_witness :
    (run ⟨[c2OpA, c2OpB], [], 0, ["A", "B"]⟩
        [.undo "A", .redo "B" c2OpB]).drawingHistory =
      ([c2OpA, c2OpB] : List DrawingOperation).dropLast ++ [c2OpB] ∧
    (run ⟨[c2OpA, c2OpB], [], 0, ["A", "B"]⟩
        [.undo "A", .redo "B" c2OpB]).drawingHistory.length =
      ([c2OpA, c2OpB] : List DrawingOperation).length :=
  ⟨(undo_then_redo_restores_tail ⟨[c2OpA, c2OpB], [], 0, ["A", "B"]⟩ "A" "B" c2OpB rfl).1,
   (undo_then_redo_restores_tail ⟨[c2OpA, c2OpB], [], 0, ["A", "B"]⟩ "A" "B" c2OpB rfl).2.1⟩

/-- C3 (counterexample): the claim that log order always equals the arrival
order of start events fails on a reachable trace: start `op1`, start `op2`,
undo both, then redo resupplying `op2` first and `op1` second leaves the
log in order `[op2, op1]`, which is not a subsequence of the start arrival
order `[op1, op2]`. -/
theorem log_order_equals_start_arrival_counterexample :
    ¬ List.Sublist ((run initState c3Trace).drawingHistory.map (·.id))
        (startIds c3Trace) := by
  decide

/-- C3 (amended): in the absence of redo events, the log's order does
follow the arrival order of start events — the log's id sequence is a
subsequence of the ids of the start-of-stroke and erase events in arrival
order (undo only pops the tail, so order is preserved). -/
theorem log_order_follows_start_arrival_without_redo (trace : List ClientEvent)
    (h : ∀ e ∈ trace, isRedo e = false) :
    List.Sublist ((run initState trace).drawingHistory.map (·.id))
      (startIds trace) := by
  simpa using logIds_sublist trace initState [] h (by simp [initState])

theorem log_order_follows_start_arrival_without_redo_witness :
    List.Sublist ((run initState c3NoRedoTrace).drawingHistory.map (·.id))
      (startIds c3NoRedoTrace) :=
  log_order_follows_start_arrival_without_redo c3NoRedoTrace (by decide)

/-- A state holding one operation, for the draw-move witness. -/
def c4Op : DrawingOperation :=
  { id := "c4op", userId := "B", type := .draw, points := [], color := "#000000",
    strokeWidth := 2, timestamp := 0 }

def c4State : ServerState :=
  ⟨[c4Op], [], 0, ["A", "B"]⟩

/-- C4: a `draw-move` either appends the incoming points to the (first)
operation carrying the referenced id, or — when no operation has that id —
leaves the whole state unchanged with no error surfaced; in both cases the
raw payload is relayed to every connection other than the sender. -/
theorem draw_move_best_effort (st : ServerState) (sid opId : String)
    (pts : List Point) :
    ((∀ op ∈ st.drawingHistory, op.id ≠ opId) →
       (step st (.drawMove sid opId pts)).1 = st) ∧
    (∀ l₁ op l₂, st.drawingHistory = l₁ ++ op :: l₂ → op.id = opId →
       (∀ o ∈ l₁, o.id ≠ opId) →
       (step st (.drawMove sid opId pts)).1 =
         { st with drawingHistory :=
             l₁ ++ { op with points := op.points ++ pts } :: l₂ }) ∧
    (step st (.drawMove sid opId pts)).2 = [⟨.others, .drawMoveOut opId pts⟩] ∧
    sid ∉ recipients sid st.connections .others ∧
    (∀ c ∈ st.connections, c ≠ sid → c ∈ recipients sid st.connections .others) := by
  refine ⟨?_, ?_, rfl, ?_, ?_⟩
  · intro h
    simp [step, handleDrawMove, updateFirst_of_not_found st.drawingHistory opId pts h]
  · intro l₁ op l₂ hl hop hmiss
    simp [step, handleDrawMove, hl, updateFirst_split l₁ op l₂ opId pts hop hmiss]
  · simp [recipients, List.mem_filter]
  · intro c hc hne
    simp [recipients, List.mem_filter, hc, hne]

theorem draw_move_best_effort_witness :
    ((step c4State (.drawMove "A" "missing" [⟨1, 1, none⟩])).1 = c4State) ∧
    (step c4State (.drawMove "A" "c4op" [⟨1, 1, none⟩])).1 =
      { c4State with drawingHistory :=
          [] ++ { c4Op with points := c4Op.points ++ [⟨1, 1, none⟩] } :: [] } :=
  ⟨(draw_move_best_effort c4State "A" "missing" [⟨1, 1, none⟩]).1 (by decide),
   (draw_move_best_effort c4State "A" "c4op" [⟨1, 1, none⟩]).2.1 [] c4Op [] rfl rfl
     (by simp)⟩

/-- C5 (counterexample): the claim that the erase stroke width equals the
first point's radius whenever the point list is non-empty (and the radius
present) fails at radius 0: the code computes `points[0]?.radius || 20`,
and `0` is falsy, so the constructed operation gets stroke width 20, not
the supplied radius 0. -/
theorem erase_radius_zero_counterexample :
    ((step initState (.erase "A" "e0" [{ x := 1, y := 2, radius := 0 }] 9)).1.drawingHistory.map
        (·.strokeWidth) = [20]) ∧
    (([({ x := 1, y := 2, radius := 0 } : ErasePoint)].head?.map (·.radius)) = some 0) ∧
    (20 : Int) ≠ 0 := by
  decide

/-- C5 (amended): every erase event appends an erase-kind operation whose
color is the fixed sentinel `"#FFFFFF"` (the payload carries no color at
all), whose stroke width is the first point's radius when the point list
is non-empty and that radius is nonzero, and 20 when the point list is
empty or the first radius is 0 (JS `||` treats 0 as falsy); the
constructed operation is relayed to every connection except the sender. -/
theorem erase_appends_sentinel_operation (st : ServerState) (sid opId : String)
    (pts : List ErasePoint) (now : Nat) :
    (step st (.erase sid opId pts now)).1 =
      { st with drawingHistory := st.drawingHistory ++ [mkEraseOp sid opId pts now] } ∧
    (mkEraseOp sid opId pts now).color = "#FFFFFF" ∧
    (mkEraseOp sid opId pts now).type = .erase ∧
    (pts = [] → eraseStrokeWidth pts = 20) ∧
    (∀ p ps, pts = p :: ps → p.radius ≠ 0 → eraseStrokeWidth pts = p.radius) ∧
    (∀ p ps, pts = p :: ps → p.radius = 0 → eraseStrokeWidth pts = 20) ∧
    (step st (.erase sid opId pts now)).2 =
      [⟨.others, .eraseOut (mkEraseOp sid opId pts now)⟩] ∧
    sid ∉ recipients sid st.connections .others := by
  refine ⟨rfl, rfl, rfl, ?_, ?_, ?_, rfl, ?_⟩
  · intro h
    simp [eraseStrokeWidth, h]
  · intro p ps h hr
    simp [eraseStrokeWidth, h, hr]
  · intro p ps h hr
    simp [eraseStrokeWidth, h, hr]
  · simp [recipients, List.mem_filter]

theorem erase_appends_sentinel_operation_witness :
    (step initState (.erase "A" "e7" [{ x := 1, y := 2, radius := 7 }] 9)).1 =
      { initState with drawingHistory := initState.drawingHistory ++
          [mkEraseOp "A" "e7" [{ x := 1, y := 2, radius := 7 }] 9] } ∧
    eraseStrokeWidth [({ x := 1, y := 2, radius := 7 } : ErasePoint)] = 7 ∧
    eraseStrokeWidth ([] : List ErasePoint) = 20 :=
  ⟨(erase_appends_sentinel_operation initState "A" "e7"
      [{ x := 1, y := 2, radius := 7 }] 9).1,
   (erase_appends_sentinel_operation initState "A" "e7"
      [{ x := 1, y := 2, radius := 7 }] 9).2.2.2.2.1 _ _ rfl (by decide),
   (erase_appends_sentinel_operation initState "A" "e0" [] 9).2.2.2.1 rfl⟩

/-- Eight connections in a row, to exhibit the palette wrap-around. -/
def c6EightConnects : List ClientEvent :=
  [.connect "1", .connect "2", .connect "3", .connect "4",
   .connect "5", .connect "6", .connect "7", .connect "8"]

/-- C6: after a trace containing `n - 1` connection events, the next
connection is assigned `userColors[(n - 1) % 8]` — the palette index is
the process-wide count of connections, which no event ever decreases —
and in particular the 9th connection of the process receives the same
color as the 1st. -/
theorem nth_connection_color (trace : List ClientEvent) (sid : String) :
    ((step (run initState trace) (.connect sid)).2.head? =
      some ⟨.senderOnly,
        .userAssigned sid (userColors.getD (countConnects trace % 8) "")
          ("User " ++ toString ((run initState trace).users.length + 1))⟩) ∧
    (∀ st e, st.colorIndex ≤ (step st e).1.colorIndex) ∧
    ((step (run initState c6EightConnects) (.connect "9")).2.head? =
      some ⟨.senderOnly,
        .userAssigned "9" (userColors.getD 0 "")
          ("User " ++ toString ((run initState c6EightConnects).users.length + 1))⟩) := by
  refine ⟨?_, ?_, ?_⟩
  · have hci : (run initState trace).colorIndex = countConnects trace := by
      simpa [initState] using colorIndex_run trace initState
    simp [step, handleConnect, hci, userColors]
  · intro st e
    cases e with
    | connect sid => simp [step, handleConnect]
    | drawStart sid d now => simp [step, handleDrawStart]
    | drawMove sid opId pts => simp [step, handleDrawMove]
    | drawEnd sid opId => simp [step, handleDrawEnd]
    | cursorMove sid cursor =>
      simp only [step, handleCursorMove]
      cases mapGet st.users sid <;> simp
    | getUser sid target => simp [step, handleGetUser]
    | undo sid =>
      simp only [step, handleUndo]
      cases st.drawingHistory.getLast? <;> simp
    | redo sid operation => simp [step, handleRedo]
    | erase sid opId pts now => simp [step, handleErase]
    | disconnect sid => simp [step, handleDisconnect]
  · decide

/-- Three joins, then the first two users depart, then two more joins:
the 6th and 7th connections are renamed from the shrunken registry size. -/
def c7ChurnTrace : List ClientEvent :=
  [.connect "A", .connect "B", .connect "C", .disconnect "A", .disconnect "B",
   .connect "D", .connect "E"]

/-- C7: a joining connection is named `"User " ++ (registry size + 1)`
computed from the Presence Registry size at join time, and because
departures shrink that size, the churn trace above leaves two distinct
live users (`"C"` and `"E"`, both named `"User 3"`) with the identical
display name. -/
theorem join_name_from_registry_size (st : ServerState) (sid : String) :
    (mapGet (step st (.connect sid)).1.users sid =
      some { id := sid, name := "User " ++ toString (st.users.length + 1),
             color := userColors.getD (st.colorIndex % userColors.length) "",
             cursor := none }) ∧
    (∃ u v, mapGet (run initState c7ChurnTrace).users "C" = some u ∧
            mapGet (run initState c7ChurnTrace).users "E" = some v ∧
            u.name = v.name ∧ u.id ≠ v.id) := by
  constructor
  · simp [step, handleConnect, mapGet_mapSet_self]
  · exact ⟨{ id := "C", name := "User 3", color := "#45B7D1", cursor := none },
           { id := "E", name := "User 3", color := "#98D8C8", cursor := none },
           by decide, by decide, by decide, by decide⟩

/-- C8: a cursor update from a registered user overwrites exactly that
user's cursor field in the registry and broadcasts the new cursor with
the user's public fields (id, name, color) to all connections other than
the sender; the sender itself is never among the recipients. -/
theorem cursor_update_overwrites_and_broadcasts (st : ServerState) (sid : String)
    (cursor : Cursor) (u : User) (h : mapGet st.users sid = some u) :
    (step st (.cursorMove sid cursor)).1 =
      { st with users := mapSet st.users sid { u with cursor := some cursor } } ∧
    mapGet (step st (.cursorMove sid cursor)).1.users sid =
      some { u with cursor := some cursor } ∧
    (step st (.cursorMove sid cursor)).2 =
      [⟨.others, .userCursor sid cursor { id := u.id, name := u.name, color := u.color }⟩] ∧
    sid ∉ recipients sid st.connections .others ∧
    (∀ c ∈ st.connections, c ≠ sid → c ∈ recipients sid st.connections .others) := by
  refine ⟨?_, ?_, ?_, ?_, ?_⟩
  · simp [step, handleCursorMove, h]
  · simp [step, handleCursorMove, h, mapGet_mapSet_self]
  · simp [step, handleCursorMove, h]
  · simp [recipients, List.mem_filter]
  · intro c hc hne
    simp [recipients, List.mem_filter, hc, hne]

/-- A registered user for the cursor witness. -/
def c8User : User :=
  { id := "A", name := "User 1", color := "#FF6B6B", cursor := none }

theorem cursor_update_overwrites_and_broadcasts_witness :
    (step ⟨[], [("A", c8User)], 1, ["A", "B"]⟩ (.cursorMove "A" ⟨3, 4⟩)).1 =
      { (⟨[], [("A", c8User)], 1, ["A", "B"]⟩ : ServerState) with
          users := mapSet [("A", c8User)] "A" { c8User with cursor := some ⟨3, 4⟩ } } ∧
    (step ⟨[], [("A", c8User)], 1, ["A", "B"]⟩ (.cursorMove "A" ⟨3, 4⟩)).2 =
      [⟨.others, .userCursor "A" ⟨3, 4⟩
          { id := c8User.id, name := c8User.name, color := c8User.color }⟩] ∧
    "A" ∉ recipients "A" ["A", "B"] .others :=
  ⟨(cursor_update_overwrites_and_broadcasts ⟨[], [("A", c8User)], 1, ["A", "B"]⟩
      "A" ⟨3, 4⟩ c8User rfl).1,
   (cursor_update_overwrites_and_broadcasts ⟨[], [("A", c8User)], 1, ["A", "B"]⟩
      "A" ⟨3, 4⟩ c8User rfl).2.2.1,
   (cursor_update_overwrites_and_broadcasts ⟨[], [("A", c8User)], 1, ["A", "B"]⟩
      "A" ⟨3, 4⟩ c8User rfl).2.2.2.1⟩

/-- C9: a disconnect removes exactly the departing user from the Presence
Registry (every other key is untouched), announces the departure to the
remaining connections, and leaves the Operation Log completely unchanged;
in particular, if the departed user authored the tail operation — even an
unfinished one — it is still there and a subsequent undo removes it. -/
theorem disconnect_removes_user_preserves_log (st : ServerState) (sid s2 : String) :
    (step st (.disconnect sid)).1.drawingHistory = st.drawingHistory ∧
    (step st (.disconnect sid)).1.users = mapDelete st.users sid ∧
    mapGet (step st (.disconnect sid)).1.users sid = none ∧
    (∀ k, k ≠ sid → mapGet (step st (.disconnect sid)).1.users k = mapGet st.users k) ∧
    (step st (.disconnect sid)).2 = [⟨.others, .userLeft sid⟩] ∧
    (∀ op, st.drawingHistory.getLast? = some op →
       (step (step st (.disconnect sid)).1 (.undo s2)).1.drawingHistory =
         st.drawingHistory.dropLast ∧
       (step (step st (.disconnect sid)).1 (.undo s2)).2 =
         [⟨.all, .operationRemoved op.id⟩]) := by
  refine ⟨rfl, rfl, ?_, ?_, rfl, ?_⟩
  · simpa [step, handleDisconnect] using mapGet_mapDelete_self st.users sid
  · intro k hk
    simpa [step, handleDisconnect] using mapGet_mapDelete_ne st.users sid k hk
  · intro op hop
    constructor
    · simp [step, handleDisconnect, handleUndo, hop]
    · simp [step, handleDisconnect, handleUndo, hop]

/-- An unfinished stroke authored by the departing user `"A"`. -/
def c9Op : DrawingOperation :=
  { id := "c9op", userId := "A", type := .draw, points := [⟨0, 0, none⟩],
    color := "#000000", strokeWidth := 2, timestamp := 0 }

def c9User : User :=
  { id := "A", name := "User 1", color := "#FF6B6B", cursor := none }

theorem disconnect_removes_user_preserves_log_witness :
    (step ⟨[c9Op], [("A", c9User)], 1, ["A", "B"]⟩ (.disconnect "A")).1.drawingHistory =
      [c9Op] ∧
    mapGet (step ⟨[c9Op], [("A", c9User)], 1, ["A", "B"]⟩
        (.disconnect "A")).1.users "A" = none ∧
    (step (step ⟨[c9Op], [("A", c9User)], 1, ["A", "B"]⟩ (.disconnect "A")).1
        (.undo "B")).1.drawingHistory = ([c9Op] : List DrawingOperation).dropLast :=
  ⟨(disconnect_removes_user_preserves_log ⟨[c9Op], [("A", c9User)], 1, ["A", "B"]⟩
      "A" "B").1,
   (disconnect_removes_user_preserves_log ⟨[c9Op], [("A", c9User)], 1, ["A", "B"]⟩
      "A" "B").2.2.1,
   ((disconnect_removes_user_preserves_log ⟨[c9Op], [("A", c9User)], 1, ["A", "B"]⟩
      "A" "B").2.2.2.2.2 c9Op rfl).1⟩

/-- The same client-chosen id used for two different strokes. -/
def c10Data : DrawStartData :=
  { id := "dup", userId := "A", type := .draw, points := [], color := "#000000",
    strokeWidth := 2 }

def c10Trace : List ClientEvent :=
  [.connect "A", .drawStart "A" c10Data 5, .drawStart "A" c10Data 6]

/-- C10: `draw-start` appends unconditionally — no uniqueness check on the
client-supplied id — so the log can hold two operations with the same id
(the trace above produces `["dup", "dup"]`); a `draw-move` referencing a
duplicated id appends its points only to the earliest operation bearing
that id, leaving every later operation with the same id unchanged. -/
theorem duplicate_ids_first_match (st : ServerState) (sid : String)
    (d : DrawStartData) (now : Nat) :
    ((step st (.drawStart sid d now)).1.drawingHistory =
       st.drawingHistory ++
         [{ id := d.id, userId := d.userId, type := d.type, points := d.points,
            color := d.color, strokeWidth := d.strokeWidth, timestamp := now }]) ∧
    ((run initState c10Trace).drawingHistory.map (·.id) = ["dup", "dup"]) ∧
    (∀ pts, (step (run initState c10Trace) (.drawMove "A" "dup" pts)).1.drawingHistory.map
        (fun op => (op.id, op.points)) = [("dup", pts), ("dup", [])]) ∧
    (∀ l₁ op l₂ opId pts, st.drawingHistory = l₁ ++ op :: l₂ → op.id = opId →
       (∀ o ∈ l₁, o.id ≠ opId) →
       (step st (.drawMove sid opId pts)).1.drawingHistory =
         l₁ ++ { op with points := op.points ++ pts } :: l₂) := by
  refine ⟨rfl, by decide, ?_, ?_⟩
  · intro pts
    simp [c10Trace, c10Data, run, step, handleConnect, handleDrawStart,
          handleDrawMove, initState, updateFirst]
  · intro l₁ op l₂ opId pts hl hop hmiss
    simp [step, handleDrawMove, hl, updateFirst_split l₁ op l₂ opId pts hop hmiss]

theorem duplicate_ids_first_match_witness :
    ((step (run initState c10Trace) (.drawMove "A" "dup" [⟨1, 1, none⟩])).1.drawingHistory.map
        (fun op => (op.id, op.points)) = [("dup", [⟨1, 1, none⟩]), ("dup", [])]) ∧
    (step ⟨[c4Op], [], 0, []⟩ (.drawMove "B" "c4op" [])).1.drawingHistory =
      [] ++ { c4Op with points := c4Op.points ++ [] } :: [] :=
  ⟨(duplicate_ids_first_match (run initState c10Trace) "A" c10Data 5).2.2.1 [⟨1, 1, none⟩],
   (duplicate_ids_first_match ⟨[c4Op], [], 0, []⟩ "B" c10Data 5).2.2.2 [] c4Op [] "c4op"
     [] rfl rfl (by simp)⟩

end DrawApp
